import Mathlib

/-!
# Scry Intelligence — verification of the auth/security services

Shallow embedding of the server-side security code of the repository:

* `shared/schema.ts` — the `users` table and `insertUserSchema`;
* `server/services/password-reset.ts` — reset-token lifecycle;
* `server/services/two-factor.ts` — TOTP enrolment, backup codes;
* `server/middleware/rate-limit.ts` — hand-rolled fixed-window limiter;
* `server/middleware/csrf.ts` — double-submit-cookie CSRF middleware;
* `server/routes/auth-extended.ts` — the forgot-password route;
* `server/storage.ts` — `createUser`.

The database is a list of user rows; a drizzle `select ... where` that is
destructured as `const [user] = ...` is `List.find?`, and
`db.update(users).set(...).where(...)` maps the update over every matching
row (SQL UPDATE semantics).  External cryptographic primitives
(`scrypt`, `authenticator.verify`, `randomBytes`) are oracle parameters:
the code only threads their outputs around, it never inspects them.
-/

namespace Scry

/-- JavaScript truthiness of a nullable string (`!x` is taken when `x` is
`null`/`undefined` or the empty string). -/
def strTruthy : Option String → Bool
  | none => false
  | some s => s ≠ ""

/-- `String#toUpperCase()` for the ASCII codes at hand: uppercase each
character. -/
def jsToUpper (s : String) : String := String.mk (s.data.map Char.toUpper)

/-- A row of the `users` table (`shared/schema.ts`).  Timestamps are
milliseconds since the epoch; nullable columns are `Option`. -/
structure User where
  id : Nat
  username : String
  password : String
  name : Option String := none
  email : Option String := none
  role : Option String := some "user"
  createdAt : Option Nat := none
  resetToken : Option String := none
  resetTokenExpiry : Option Nat := none
  twoFactorSecret : Option String := none
  twoFactorEnabled : Bool := false
  /-- `two_factor_backup_codes` holds `JSON.stringify` of a list of strings;
  since `JSON.parse ∘ JSON.stringify` is the identity on such lists we store
  the list itself. -/
  twoFactorBackupCodes : Option (List String) := none
  deriving Repr, DecidableEq

/-- The `users` table contents. -/
abbrev UserDb := List User

/-- `db.update(users).set(f).where(p)` — update every matching row. -/
def updateWhere (p : User → Bool) (f : User → User) (db : UserDb) : UserDb :=
  db.map fun u => if p u then f u else u

/-! ## `server/services/password-reset.ts` -/

def RESET_TOKEN_EXPIRY_HOURS : Nat := 1

/-- `createPasswordResetToken(email)` — `freshToken` stands for
`randomBytes(32).toString("hex")`, `now` for `Date.now()`.  Returns the
token (or `null` when the email matches no user) and the new table. -/
def createPasswordResetToken (freshToken : String) (now : Nat)
    (db : UserDb) (email : String) : Option String × UserDb :=
  match db.find? (fun u => u.email == some email) with
  | none => (none, db)
  | some user =>
    let expiry := now + RESET_TOKEN_EXPIRY_HOURS * 60 * 60 * 1000
    (some freshToken,
      updateWhere (fun u => u.id == user.id)
        (fun u => { u with resetToken := some freshToken,
                           resetTokenExpiry := some expiry }) db)

/-- `validateResetToken(token)` — pure lookup, returns the user id or
`null`.  `new Date() > user.resetTokenExpiry` is the strict comparison
`expiry < now`. -/
def validateResetToken (now : Nat) (db : UserDb) (token : String) : Option Nat :=
  match db.find? (fun u => u.resetToken == some token) with
  | none => none
  | some user =>
    match user.resetTokenExpiry with
    | none => none
    | some expiry => if expiry < now then none else some user.id

/-- `resetPassword(token, newPassword)` — `hashPassword` is the credential
hasher from `server/auth.ts` (an oracle here).  The JS guard
`if (!userId)` also fires on the number `0`, so id `0` is rejected
explicitly (row ids are a positive `serial` in the schema). -/
def resetPassword (hashPassword : String → String) (now : Nat)
    (db : UserDb) (token newPassword : String) : Bool × UserDb :=
  match validateResetToken now db token with
  | none => (false, db)
  | some userId =>
    if userId = 0 then (false, db)
    else
      (true,
        updateWhere (fun u => u.id == userId)
          (fun u => { u with password := hashPassword newPassword,
                             resetToken := none,
                             resetTokenExpiry := none }) db)

/-! ## `server/services/two-factor.ts`

`totpVerify code secret` models `authenticator.verify({token, secret})`;
`scryptHex code salt` models `(await scryptAsync(code, salt, 64)).toString("hex")`.
`codeRand i` / `saltRand i` model the `randomBytes(...).toString("hex")`
draw of loop iteration `i`. -/

def BACKUP_CODES_COUNT : Nat := 10

/-- `generateBackupCodes()` — ten draws of `randomBytes(4).toString("hex").toUpperCase()`. -/
def generateBackupCodes (codeRand : Nat → String) : List String :=
  (List.range BACKUP_CODES_COUNT).map fun i => jsToUpper (codeRand i)

/-- `hashBackupCodes(codes)` — each code gets its own fresh 16-byte salt and
is stored as `"<scryptHex>.<salt>"`. -/
def hashBackupCodes (scryptHex : String → String → String)
    (saltRand : Nat → String) (codes : List String) : List String :=
  codes.enum.map fun p => scryptHex p.2 (saltRand p.1) ++ "." ++ saltRand p.1

/-- `String#split(".")` on the underlying character list (JS semantics:
`"" ↦ [""]`, separators delimit possibly-empty fields). -/
def splitDot : List Char → List (List Char)
  | [] => [[]]
  | ch :: rest =>
    let r := splitDot rest
    if ch = '.' then [] :: r
    else
      match r with
      | [] => [[ch]]
      | g :: gs => (ch :: g) :: gs

/-- `entry.split(".")[0]` — the stored digest half of a backup-code entry. -/
def entryHash (entry : String) : String :=
  ((splitDot entry.data).map String.mk).headD ""

/-- `entry.split(".")[1]` — the stored salt half of a backup-code entry. -/
def entrySalt (entry : String) : String :=
  (((splitDot entry.data).map String.mk).get? 1).getD ""

/-- One iteration of the `verifyAndConsumeBackupCode` loop body:
`timingSafeEqual(Buffer.from(hashed, "hex"), await scryptAsync(code, salt, 64))`
— byte-buffer equality of two 64-byte digests is equality of their
lowercase-hex renderings, which is what both sides are. -/
def entryMatches (scryptHex : String → String → String)
    (code entry : String) : Bool :=
  entryHash entry == scryptHex code (entrySalt entry)

/-- The `for` loop of `verifyAndConsumeBackupCode`: find the first entry the
supplied code matches, and `splice` it out; `none` when no entry matches. -/
def consumeFirst (scryptHex : String → String → String)
    (code : String) : List String → Option (List String)
  | [] => none
  | e :: rest =>
    if entryMatches scryptHex code e then some rest
    else (consumeFirst scryptHex code rest).map (e :: ·)

/-- `verifyAndConsumeBackupCode(userId, code)` — the supplied code is
uppercased before hashing (`code.toUpperCase()`); on a match the spliced
list is written back. -/
def verifyAndConsumeBackupCode (scryptHex : String → String → String)
    (db : UserDb) (userId : Nat) (code : String) : Bool × UserDb :=
  match db.find? (fun u => u.id == userId) with
  | none => (false, db)
  | some user =>
    match user.twoFactorBackupCodes with
    | none => (false, db)
    | some hashedCodes =>
      match consumeFirst scryptHex (jsToUpper code) hashedCodes with
      | none => (false, db)
      | some remaining =>
        (true,
          updateWhere (fun u => u.id == userId)
            (fun u => { u with twoFactorBackupCodes := some remaining }) db)

/-- `generate2FASecret(userId)` — stores the fresh secret without enabling
2FA; `throw` on an unknown user is modelled as a `none` result with the
table untouched.  (The QR-code data URL is presentation only.) -/
def generate2FASecret (freshSecret : String) (db : UserDb) (userId : Nat) :
    Option String × UserDb :=
  match db.find? (fun u => u.id == userId) with
  | none => (none, db)
  | some _ =>
    (some freshSecret,
      updateWhere (fun u => u.id == userId)
        (fun u => { u with twoFactorSecret := some freshSecret }) db)

/-- `verify2FAAndEnable(userId, code)` — `!user.twoFactorSecret` is JS
truthiness, so an empty-string secret also short-circuits. -/
def verify2FAAndEnable (totpVerify : String → String → Bool)
    (scryptHex : String → String → String)
    (codeRand saltRand : Nat → String)
    (db : UserDb) (userId : Nat) (code : String) :
    (Bool × Option (List String)) × UserDb :=
  match db.find? (fun u => u.id == userId) with
  | none => ((false, none), db)
  | some user =>
    if strTruthy user.twoFactorSecret = false then ((false, none), db)
    else
      let secret := user.twoFactorSecret.getD ""
      if totpVerify code secret = false then ((false, none), db)
      else
        let backupCodes := generateBackupCodes codeRand
        let hashedBackupCodes := hashBackupCodes scryptHex saltRand backupCodes
        ((true, some backupCodes),
          updateWhere (fun u => u.id == userId)
            (fun u => { u with twoFactorEnabled := true,
                               twoFactorBackupCodes := some hashedBackupCodes }) db)

/-- `verify2FACode(userId, code)` — TOTP first, then fall back to a backup
code (which is consumed). -/
def verify2FACode (totpVerify : String → String → Bool)
    (scryptHex : String → String → String)
    (db : UserDb) (userId : Nat) (code : String) : Bool × UserDb :=
  match db.find? (fun u => u.id == userId) with
  | none => (false, db)
  | some user =>
    if strTruthy user.twoFactorSecret = false ∨ user.twoFactorEnabled = false then
      (false, db)
    else
      let secret := user.twoFactorSecret.getD ""
      if totpVerify code secret then (true, db)
      else verifyAndConsumeBackupCode scryptHex db userId code

/-- `disable2FA(userId)`. -/
def disable2FA (db : UserDb) (userId : Nat) : UserDb :=
  updateWhere (fun u => u.id == userId)
    (fun u => { u with twoFactorEnabled := false,
                       twoFactorSecret := none,
                       twoFactorBackupCodes := none }) db

/-! ## `server/middleware/rate-limit.ts` — `createRateLimiter` -/

/-- An entry of the limiter's `hits` map. -/
structure HitRecord where
  count : Nat
  expiresAt : Nat
  deriving Repr, DecidableEq

/-- The `hits : Map<string, HitRecord>` state. -/
def HitsMap := String → Option HitRecord

/-- `hits.set(key, record)`. -/
def setHit (hits : HitsMap) (key : String) (record : HitRecord) : HitsMap :=
  fun k => if k = key then some record else hits k

/-- The nested `cleanup` helper: deletes the record when it has expired. -/
def cleanup (hits : HitsMap) (key : String) (record : HitRecord) (now : Nat) : HitsMap :=
  if record.expiresAt ≤ now then fun k => if k = key then none else hits k
  else hits

/-- What reaches the middleware from a request: the value of
`skip(req)`, of `keyGenerator(req)`, and of `Date.now()`. -/
structure RLRequest where
  skip : Bool
  key : String
  now : Nat
  deriving Repr, DecidableEq

/-- How one request is answered: passed on (`next()`) or answered with an
HTTP status and a `retryAfter` of `Math.ceil((expiresAt - now) / 1000)`. -/
inductive RLOutcome where
  | allowed : RLOutcome
  | rejected (status retryAfter : Nat) : RLOutcome
  deriving Repr, DecidableEq

/-- The returned `rateLimiter` middleware, for one request. -/
def rateLimiter (windowMs max : Nat) (hits : HitsMap) (r : RLRequest) :
    RLOutcome × HitsMap :=
  if r.skip then (.allowed, hits)
  else
    match hits r.key with
    | none => (.allowed, setHit hits r.key ⟨1, r.now + windowMs⟩)
    | some record =>
      if record.expiresAt ≤ r.now then
        (.allowed, setHit hits r.key ⟨1, r.now + windowMs⟩)
      else
        let hits1 := cleanup hits r.key record r.now
        if max ≤ record.count then
          (.rejected 429 ((record.expiresAt - r.now + 999) / 1000), hits1)
        else
          (.allowed, setHit hits1 r.key ⟨record.count + 1, record.expiresAt⟩)

/-- Feed a sequence of requests through the limiter. -/
def rateLimiterRun (windowMs max : Nat) (hits : HitsMap) :
    List RLRequest → List RLOutcome × HitsMap
  | [] => ([], hits)
  | r :: rs =>
    let step := rateLimiter windowMs max hits r
    let rest := rateLimiterRun windowMs max step.2 rs
    (step.1 :: rest.1, rest.2)

/-- A non-skipped request on `key` at time `now`. -/
def reqAt (key : String) (now : Nat) : RLRequest := ⟨false, key, now⟩

/-! ## `server/middleware/csrf.ts` — `csrfProtection` -/

/-- What the CSRF middleware does to one request: whether `next()` was
reached, the HTTP status of a rejection, the `csrf-token` cookie written on
the response (when the request carried none), and the value
`req.csrfToken()` reports. -/
structure CsrfResult where
  passed : Bool
  status : Option Nat
  setCookie : Option String
  csrfTokenFn : String
  deriving Repr, DecidableEq

/-- `csrfProtection(req, res, next)` — `cookieToken` is
`req.cookies?.["csrf-token"]`, `headerToken` is
`req.headers["x-csrf-token"]`, and `freshToken` stands for the
`randomBytes(32).toString("hex")` draw used when the cookie is falsy. -/
def csrfProtection (freshToken : String) (method : String)
    (cookieToken headerToken : Option String) : CsrfResult :=
  let hadCookie := strTruthy cookieToken
  let token := if hadCookie then cookieToken.getD "" else freshToken
  let setCookie := if hadCookie then none else some freshToken
  if ["GET", "HEAD", "OPTIONS"].contains method then
    { passed := true, status := none, setCookie := setCookie, csrfTokenFn := token }
  else
    if strTruthy headerToken = false ∨ headerToken.getD "" ≠ token then
      { passed := false, status := some 403, setCookie := setCookie, csrfTokenFn := token }
    else
      { passed := true, status := none, setCookie := setCookie, csrfTokenFn := token }

/-! ## `server/routes/auth-extended.ts` — `POST /api/auth/forgot-password` -/

/-- The JSON body the forgot-password route answers with. -/
inductive ForgotBody where
  | validationError : ForgotBody
  | success (message : String) : ForgotBody
  deriving Repr, DecidableEq

/-- An HTTP response of the route. -/
structure ForgotResp where
  status : Nat
  body : ForgotBody
  deriving Repr, DecidableEq

/-- The generic message sent whether or not the account exists. -/
def forgotGenericMessage : String :=
  "If an account exists with this email, a reset link has been sent."

/-- The `POST /api/auth/forgot-password` handler: zod-validate the email
(`emailValid` models `z.string().email()`), create the token, send the mail
only when a token came back (`if (token)`), and always answer the generic
200.  The `Bool` component records whether `sendPasswordResetEmail` was
invoked. -/
def forgotPasswordRoute (emailValid : String → Bool) (freshToken : String)
    (now : Nat) (db : UserDb) (email : String) :
    ForgotResp × UserDb × Bool :=
  if emailValid email = false then (⟨400, .validationError⟩, db, false)
  else
    let res := createPasswordResetToken freshToken now db email
    (⟨200, .success forgotGenericMessage⟩, res.2, strTruthy res.1)

/-! ## `shared/schema.ts` / `server/storage.ts` — registration -/

/-- A client-supplied registration body; `role` is the extra key an
attacker may add. -/
structure RegistrationPayload where
  username : Option String := none
  password : Option String := none
  name : Option String := none
  email : Option String := none
  role : Option String := none
  deriving Repr, DecidableEq

/-- The values admitted by `insertUserSchema`
(`createInsertSchema(users).pick({username, password, name, email})`). -/
structure InsertUser where
  username : String
  password : String
  name : Option String
  email : Option String
  deriving Repr, DecidableEq

/-- `insertUserSchema.parse(body)` — zod strips unknown keys (so `role`
never survives); `username` and `password` are required, `name` and
`email` nullable. -/
def insertUserSchemaParse (p : RegistrationPayload) : Option InsertUser :=
  match p.username, p.password with
  | some username, some password =>
    some { username := username, password := password,
           name := p.name, email := p.email }
  | _, _ => none

/-- `storage.createUser(insertUser)` — `INSERT ... RETURNING`; every column
not in the insert payload takes its schema default (`role` ↦ `'user'`,
`two_factor_enabled` ↦ `false`, the nullable columns ↦ `null`). -/
def createUser (newId now : Nat) (db : UserDb) (iu : InsertUser) : User × UserDb :=
  let row : User :=
    { id := newId, username := iu.username, password := iu.password,
      name := iu.name, email := iu.email, role := some "user",
      createdAt := some now }
  (row, db ++ [row])

/-- Modelled from the spec: the registration handler (`server/auth.ts`, not
under `src/`) validates the request body with `insertUserSchema` and stores
the admitted fields via `storage.createUser`; a body that fails validation
stores nothing. -/
def registerUser (newId now : Nat) (db : UserDb) (p : RegistrationPayload) :
    Option User × UserDb :=
  match insertUserSchemaParse p with
  | none => (none, db)
  | some iu =>
    let res := createUser newId now db iu
    (some res.1, res.2)

/-! ## Shared lemmas about the table helpers -/

theorem mem_updateWhere {p : User → Bool} {f : User → User} {db : UserDb} {u' : User}
    (h : u' ∈ updateWhere p f db) :
    ∃ u, u ∈ db ∧ u' = if p u then f u else u := by
  rcases List.mem_map.mp h with ⟨u, hu, he⟩
  exact ⟨u, hu, he.symm⟩

theorem mem_updateWhere_of_mem {p : User → Bool} {f : User → User} {db : UserDb} {u : User}
    (hu : u ∈ db) (hp : p u = false) : u ∈ updateWhere p f db := by
  have : u = if p u then f u else u := by rw [hp]; rfl
  exact this ▸ List.mem_map.mpr ⟨u, hu, by rw [hp]⟩

theorem find?_updateWhere {p : User → Bool} {f : User → User}
    (hp : ∀ u, p (f u) = p u) (db : UserDb) :
    (updateWhere p f db).find? p = (db.find? p).map f := by
  induction db with
  | nil => rfl
  | cons u rest ih =>
    cases hu : p u with
    | true =>
      have hcons : updateWhere p f (u :: rest) = f u :: updateWhere p f rest := by
        simp [updateWhere, hu]
      rw [hcons, List.find?_cons_of_pos _ (by rw [hp]; exact hu),
        List.find?_cons_of_pos _ hu, Option.map_some']
    | false =>
      have hcons : updateWhere p f (u :: rest) = u :: updateWhere p f rest := by
        simp [updateWhere, hu]
      rw [hcons, List.find?_cons_of_neg _ (by rw [hu]; simp),
        List.find?_cons_of_neg _ (by rw [hu]; simp), ih]

/-- If `validateResetToken` returns an id, some row holds the token,
is unexpired, and has that id. -/
theorem validateResetToken_some {now : Nat} {db : UserDb} {T : String} {i : Nat}
    (h : validateResetToken now db T = some i) :
    ∃ u ∈ db, u.resetToken = some T ∧ u.id = i ∧
      ∃ e, u.resetTokenExpiry = some e ∧ now ≤ e := by
  unfold validateResetToken at h
  cases hf : db.find? (fun u => u.resetToken == some T) with
  | none => rw [hf] at h; cases h
  | some u =>
    rw [hf] at h
    simp only at h
    have hmem := List.mem_of_find?_eq_some hf
    have htok : u.resetToken = some T := by
      have := List.find?_some hf
      simpa using this
    cases he : u.resetTokenExpiry with
    | none => rw [he] at h; cases h
    | some e =>
      rw [he] at h
      by_cases hlt : e < now
      · simp [hlt] at h
      · simp only [if_neg hlt, Option.some.injEq] at h
        exact ⟨u, hmem, htok, h, e, he, Nat.le_of_not_lt hlt⟩

/-- If no row in `db` holds token `T`, validation yields `null`. -/
theorem validateResetToken_eq_none {now : Nat} {db : UserDb} {T : String}
    (h : ∀ u ∈ db, u.resetToken ≠ some T) :
    validateResetToken now db T = none := by
  unfold validateResetToken
  have : db.find? (fun u => u.resetToken == some T) = none := by
    rw [List.find?_eq_none]
    intro u hu
    simpa using h u hu
  rw [this]

/-! ## Password-reset claims -/

/-- C6: `validateResetToken` returns `null` exactly when no user holds
token `T`, the stored expiry is null, or the current time is past the
expiry; otherwise it returns the holder's id.  The embedding returns no
table, mirroring that the source performs no write on any path, and the
expiry test compares against the clock — no explicit expiration event is
needed.  (`hUniq`: reset tokens are 32-byte random values, so a token
identifies at most one row.) -/
theorem validateResetToken_spec (now : Nat) (db : UserDb) (T : String)
    (hUniq : ∀ u ∈ db, ∀ v ∈ db,
      u.resetToken = some T → v.resetToken = some T → u = v) :
    (validateResetToken now db T = none ↔
      ∀ u ∈ db, u.resetToken = some T →
        u.resetTokenExpiry = none ∨ ∃ e, u.resetTokenExpiry = some e ∧ e < now) ∧
    (∀ i, validateResetToken now db T = some i ↔
      ∃ u ∈ db, u.resetToken = some T ∧ u.id = i ∧
        ∃ e, u.resetTokenExpiry = some e ∧ now ≤ e) := by
  have hsome : ∀ i, validateResetToken now db T = some i ↔
      ∃ u ∈ db, u.resetToken = some T ∧ u.id = i ∧
        ∃ e, u.resetTokenExpiry = some e ∧ now ≤ e := by
    intro i
    constructor
    · exact validateResetToken_some
    · rintro ⟨u, hu, htok, hid, e, hexp, hle⟩
      have hex : (db.find? (fun u => u.resetToken == some T)).isSome = true :=
        List.find?_isSome.mpr ⟨u, hu, by simp [htok]⟩
      obtain ⟨v, hf⟩ := Option.isSome_iff_exists.mp hex
      have hvmem := List.mem_of_find?_eq_some hf
      have hvtok : v.resetToken = some T := by
        have := List.find?_some hf
        simpa using this
      have hvu : v = u := hUniq v hvmem u hu hvtok htok
      unfold validateResetToken
      rw [hf]
      simp only [hvu, hexp]
      rw [if_neg (Nat.not_lt.mpr hle), hid]
  refine ⟨?_, hsome⟩
  constructor
  · intro hnone u hu htok
    cases he : u.resetTokenExpiry with
    | none => exact Or.inl rfl
    | some e =>
      by_cases hlt : e < now
      · exact Or.inr ⟨e, rfl, hlt⟩
      · exfalso
        have : validateResetToken now db T = some u.id :=
          (hsome u.id).mpr ⟨u, hu, htok, rfl, e, he, Nat.le_of_not_lt hlt⟩
        rw [hnone] at this
        cases this
  · intro hall
    cases hres : validateResetToken now db T with
    | none => rfl
    | some i =>
      exfalso
      obtain ⟨u, hu, htok, _, e, hexp, hle⟩ := validateResetToken_some hres
      rcases hall u hu htok with hn | ⟨e', hexp', hlt⟩
      · rw [hn] at hexp; cases hexp
      · rw [hexp'] at hexp
        cases hexp
        exact Nat.not_lt.mpr hle hlt

/-- Sample row used to instantiate the password-reset theorems. -/
def wUser : User :=
  { id := 1, username := "alice", password := "oldhash",
    resetToken := some "tok", resetTokenExpiry := some 1000 }

/-- C6 witness: the theorem applied to a one-row table whose token is
still fresh at time 500. -/
theorem validateResetToken_spec_witness :
    (validateResetToken 500 [wUser] "tok" = none ↔
      ∀ u ∈ [wUser], u.resetToken = some "tok" →
        u.resetTokenExpiry = none ∨ ∃ e, u.resetTokenExpiry = some e ∧ e < 500) ∧
    (∀ i, validateResetToken 500 [wUser] "tok" = some i ↔
      ∃ u ∈ [wUser], u.resetToken = some "tok" ∧ u.id = i ∧
        ∃ e, u.resetTokenExpiry = some e ∧ 500 ≤ e) :=
  validateResetToken_spec 500 [wUser] "tok" (by decide)

/-- C7: `resetPassword` succeeds exactly when `validateResetToken`
accepts the token in the same state, and a failing call leaves the table
untouched.  (`hPos`: row ids come from a positive `serial` column, which
is what lets the JS guard `if (!userId)` coincide with the null test.) -/
theorem resetPassword_iff_valid (hash : String → String) (now : Nat)
    (db : UserDb) (T p : String) (hPos : ∀ u ∈ db, 0 < u.id) :
    ((resetPassword hash now db T p).1 = true ↔
      (validateResetToken now db T).isSome = true) ∧
    ((resetPassword hash now db T p).1 = false →
      (resetPassword hash now db T p).2 = db) := by
  cases hv : validateResetToken now db T with
  | none =>
    unfold resetPassword
    rw [hv]
    simp
  | some i =>
    obtain ⟨u, hu, _, hid, _⟩ := validateResetToken_some hv
    have hipos : 0 < i := hid ▸ hPos u hu
    unfold resetPassword
    rw [hv]
    simp only []
    rw [if_neg (Nat.pos_iff_ne_zero.mp hipos)]
    simp

/-- C7 witness: concrete success at time 500 on the sample row. -/
theorem resetPassword_iff_valid_witness :
    ((resetPassword (fun s => "H" ++ s) 500 [wUser] "tok" "npw").1 = true ↔
      (validateResetToken 500 [wUser] "tok").isSome = true) ∧
    ((resetPassword (fun s => "H" ++ s) 500 [wUser] "tok" "npw").1 = false →
      (resetPassword (fun s => "H" ++ s) 500 [wUser] "tok" "npw").2 = [wUser]) :=
  resetPassword_iff_valid (fun s => "H" ++ s) 500 [wUser] "tok" "npw" (by decide)

/-- C1: a successful `resetPassword` clears the stored token and expiry,
so the token validates to `null` afterwards (at any time) and a second
`resetPassword` with the same token fails (at any time, with any new
password). -/
theorem resetPassword_single_use (hash : String → String)
    (now now' now'' : Nat) (db db' : UserDb) (T p p' : String)
    (hUniq : ∀ u ∈ db, ∀ v ∈ db,
      u.resetToken = some T → v.resetToken = some T → u = v)
    (h : resetPassword hash now db T p = (true, db')) :
    validateResetToken now' db' T = none ∧
    (resetPassword hash now'' db' T p').1 = false := by
  cases hv : validateResetToken now db T with
  | none =>
    unfold resetPassword at h
    rw [hv] at h
    simp at h
  | some i =>
    obtain ⟨u₀, hu₀, htok₀, hid₀, _⟩ := validateResetToken_some hv
    unfold resetPassword at h
    rw [hv] at h
    simp only [] at h
    by_cases hz : i = 0
    · rw [if_pos hz] at h
      simp at h
    · rw [if_neg hz] at h
      have hdb' : db' = updateWhere (fun u => u.id == i)
          (fun u => { u with password := hash p, resetToken := none,
                             resetTokenExpiry := none }) db := by
        have := congrArg Prod.snd h
        simpa using this.symm
      have hnone : ∀ w ∈ db', w.resetToken ≠ some T := by
        intro w hw
        rw [hdb'] at hw
        obtain ⟨u, hu, he⟩ := mem_updateWhere hw
        by_cases hpu : (u.id == i) = true
        · rw [if_pos hpu] at he
          rw [he]
          simp
        · rw [if_neg hpu] at he
          rw [he]
          intro hwt
          have huq : u = u₀ := hUniq u hu u₀ hu₀ hwt htok₀
          exact hpu (by simp [huq, hid₀])
      refine ⟨validateResetToken_eq_none hnone, ?_⟩
      unfold resetPassword
      rw [validateResetToken_eq_none hnone]

/-- C1 witness: after resetting with the sample token, validation yields
`null` at time 0 and a second reset at time 9999 fails. -/
theorem resetPassword_single_use_witness :
    validateResetToken 0
      [{ wUser with password := "Hnpw", resetToken := none,
                    resetTokenExpiry := none }] "tok" = none ∧
    (resetPassword (fun s => "H" ++ s) 9999
      [{ wUser with password := "Hnpw", resetToken := none,
                    resetTokenExpiry := none }] "tok" "x").1 = false :=
  resetPassword_single_use (fun s => "H" ++ s) 500 0 9999 [wUser]
    [{ wUser with password := "Hnpw", resetToken := none,
                  resetTokenExpiry := none }] "tok" "npw" "x"
    (by decide) (by decide)

/-! ## Registration claim -/

/-- C9: whatever the registration payload contains — in particular a
`role: "admin"` key — the stored row has role `user`: `insertUserSchema`
admits only `username`, `password`, `name`, `email` (its parse result does
not depend on the payload's `role`), and the `role` column takes its
schema default `'user'`. -/
theorem registration_role_default (newId now : Nat) (db : UserDb)
    (p : RegistrationPayload) (u : User) (db' : UserDb)
    (h : registerUser newId now db p = (some u, db')) :
    u.role = some "user" ∧ u ∈ db' ∧
    insertUserSchemaParse p = insertUserSchemaParse { p with role := none } := by
  have hparse : insertUserSchemaParse p = insertUserSchemaParse { p with role := none } := by
    unfold insertUserSchemaParse
    rfl
  unfold registerUser at h
  cases hp : insertUserSchemaParse p with
  | none => rw [hp] at h; cases h
  | some iu =>
    rw [hp] at h
    simp only [createUser, Prod.mk.injEq, Option.some.injEq] at h
    obtain ⟨hu, hdb'⟩ := h
    subst hu
    refine ⟨rfl, ?_, hp.symm.trans hparse⟩
    rw [← hdb']
    simp

/-- C9 witness: a payload that smuggles `role: "admin"` still yields a
stored role of `user`. -/
theorem registration_role_default_witness :
    ({ id := 7, username := "attacker", password := "pw",
       name := none, email := none, role := some "user",
       createdAt := some 99 } : User).role = some "user" ∧
    ({ id := 7, username := "attacker", password := "pw",
       name := none, email := none, role := some "user",
       createdAt := some 99 } : User) ∈
      [{ id := 7, username := "attacker", password := "pw",
         name := none, email := none, role := some "user",
         createdAt := some 99 }] ∧
    insertUserSchemaParse
      { username := some "attacker", password := some "pw",
        role := some "admin" } =
    insertUserSchemaParse
      { username := some "attacker", password := some "pw",
        role := none } :=
  registration_role_default 7 99 []
    { username := some "attacker", password := some "pw", role := some "admin" }
    { id := 7, username := "attacker", password := "pw",
      name := none, email := none, role := some "user", createdAt := some 99 }
    [{ id := 7, username := "attacker", password := "pw",
       name := none, email := none, role := some "user", createdAt := some 99 }]
    (by decide)

/-! ## CSRF claim -/

/-- C5: safe methods (GET/HEAD/OPTIONS) always pass regardless of the
header; any other method passes exactly when the `x-csrf-token` header
equals the effective `csrf-token` cookie value (the request's cookie when
it carried one, else the fresh token the middleware simultaneously sets as
the cookie), and a missing or mismatched header yields 403; when the
request already carried the cookie, nothing is written ­— the middleware
keeps no server-side state at all.  (`hfresh`: the regenerated token is
64 hex characters, never empty.) -/
theorem csrfProtection_spec (freshToken method : String)
    (cookieToken headerToken : Option String)
    (hfresh : freshToken ≠ "") :
    (["GET", "HEAD", "OPTIONS"].contains method = true →
      (csrfProtection freshToken method cookieToken headerToken).passed = true ∧
      (csrfProtection freshToken method cookieToken headerToken).status = none) ∧
    (["GET", "HEAD", "OPTIONS"].contains method = false →
      ((csrfProtection freshToken method cookieToken headerToken).passed = true ↔
        headerToken = some (if strTruthy cookieToken then cookieToken.getD ""
                            else freshToken)) ∧
      ((csrfProtection freshToken method cookieToken headerToken).passed = false →
        (csrfProtection freshToken method cookieToken headerToken).status = some 403)) ∧
    (strTruthy cookieToken = true →
      (csrfProtection freshToken method cookieToken headerToken).setCookie = none ∧
      (if strTruthy cookieToken then cookieToken.getD "" else freshToken)
        = cookieToken.getD "") := by
  have hTne : (if strTruthy cookieToken then cookieToken.getD "" else freshToken) ≠ "" := by
    by_cases hc : strTruthy cookieToken = true
    · rw [if_pos hc]
      cases cookieToken with
      | none => simp [strTruthy] at hc
      | some s => simpa [strTruthy] using hc
    · rw [if_neg hc]
      exact hfresh
  refine ⟨?_, ?_, ?_⟩
  · intro hm
    have hmem : method = "GET" ∨ method = "HEAD" ∨ method = "OPTIONS" := by
      simpa using hm
    simp [csrfProtection, hmem]
  · intro hm
    have hmem : ¬(method = "GET" ∨ method = "HEAD" ∨ method = "OPTIONS") := by
      simpa using hm
    by_cases hcond : strTruthy headerToken = false ∨
        headerToken.getD "" ≠ (if strTruthy cookieToken then cookieToken.getD ""
                               else freshToken)
    · have hr : csrfProtection freshToken method cookieToken headerToken =
          { passed := false, status := some 403,
            setCookie := if strTruthy cookieToken then none else some freshToken,
            csrfTokenFn := if strTruthy cookieToken then cookieToken.getD ""
                           else freshToken } := by
        simp only [csrfProtection]
        rw [if_neg (by rw [hm]; exact Bool.false_ne_true), if_pos hcond]
      rw [hr]
      refine ⟨?_, fun _ => rfl⟩
      simp only [Bool.false_eq_true, false_iff]
      intro hh
      rw [hh] at hcond
      rcases hcond with hA | hB
      · refine hTne ?_
        simpa [strTruthy] using hA
      · simp at hB
    · have hr : csrfProtection freshToken method cookieToken headerToken =
          { passed := true, status := none,
            setCookie := if strTruthy cookieToken then none else some freshToken,
            csrfTokenFn := if strTruthy cookieToken then cookieToken.getD ""
                           else freshToken } := by
        simp only [csrfProtection]
        rw [if_neg (by rw [hm]; exact Bool.false_ne_true), if_neg hcond]
      rw [hr]
      push_neg at hcond
      obtain ⟨hA, hB⟩ := hcond
      cases headerToken with
      | none => simp [strTruthy] at hA
      | some h =>
        simp only [Option.getD_some] at hB
        refine ⟨by simp [hB], fun hfa => by cases hfa⟩
  · intro hc
    refine ⟨?_, if_pos hc⟩
    simp only [csrfProtection, hc, if_true]
    split
    · rfl
    · split
      · rfl
      · rfl

/-- C5 witness: a POST with a matching header passes; the conclusion is
the theorem instantiated at a present cookie. -/
theorem csrfProtection_spec_witness :
    (["GET", "HEAD", "OPTIONS"].contains "POST" = true →
      (csrfProtection "F" "POST" (some "T") (some "T")).passed = true ∧
      (csrfProtection "F" "POST" (some "T") (some "T")).status = none) ∧
    (["GET", "HEAD", "OPTIONS"].contains "POST" = false →
      ((csrfProtection "F" "POST" (some "T") (some "T")).passed = true ↔
        some "T" = some (if strTruthy (some "T") then (some "T").getD ""
                         else "F")) ∧
      ((csrfProtection "F" "POST" (some "T") (some "T")).passed = false →
        (csrfProtection "F" "POST" (some "T") (some "T")).status = some 403)) ∧
    (strTruthy (some "T") = true →
      (csrfProtection "F" "POST" (some "T") (some "T")).setCookie = none ∧
      (if strTruthy (some "T") then (some "T").getD "" else "F")
        = (some "T").getD "") :=
  csrfProtection_spec "F" "POST" (some "T") (some "T") (by decide)

/-! ## Forgot-password enumeration claim -/

/-- C8: for two well-formed forgot-password requests, one whose email has
an account and one whose email has none, the HTTP responses are the same
generic 200; only the matching request stores a fresh reset token (with a
one-hour expiry) and triggers mail delivery, while the non-matching one
changes nothing and sends nothing. -/
theorem forgotPassword_no_enumeration
    (emailValid : String → Bool) (fresh₁ fresh₂ : String) (now : Nat)
    (db : UserDb) (e₁ e₂ : String)
    (hfresh : fresh₁ ≠ "")
    (hv₁ : emailValid e₁ = true) (hv₂ : emailValid e₂ = true)
    (u : User) (hex : db.find? (fun x => x.email == some e₁) = some u)
    (hnone : db.find? (fun x => x.email == some e₂) = none) :
    (forgotPasswordRoute emailValid fresh₁ now db e₁).1 =
      (forgotPasswordRoute emailValid fresh₂ now db e₂).1 ∧
    (forgotPasswordRoute emailValid fresh₁ now db e₁).1 =
      ⟨200, .success forgotGenericMessage⟩ ∧
    (forgotPasswordRoute emailValid fresh₂ now db e₂).2.1 = db ∧
    (forgotPasswordRoute emailValid fresh₂ now db e₂).2.2 = false ∧
    (forgotPasswordRoute emailValid fresh₁ now db e₁).2.2 = true ∧
    ∃ w ∈ (forgotPasswordRoute emailValid fresh₁ now db e₁).2.1,
      w.resetToken = some fresh₁ ∧
      w.resetTokenExpiry = some (now + RESET_TOKEN_EXPIRY_HOURS * 60 * 60 * 1000) := by
  have h₁ : forgotPasswordRoute emailValid fresh₁ now db e₁ =
      (⟨200, .success forgotGenericMessage⟩,
        updateWhere (fun x => x.id == u.id)
          (fun x =>
            { x with
              resetToken := some fresh₁,
              resetTokenExpiry := some (now + RESET_TOKEN_EXPIRY_HOURS * 60 * 60 * 1000) }) db,
        strTruthy (some fresh₁)) := by
    unfold forgotPasswordRoute createPasswordResetToken
    rw [if_neg (by rw [hv₁]; simp), hex]
  have h₂ : forgotPasswordRoute emailValid fresh₂ now db e₂ =
      (⟨200, .success forgotGenericMessage⟩, db, strTruthy none) := by
    unfold forgotPasswordRoute createPasswordResetToken
    rw [if_neg (by rw [hv₂]; simp), hnone]
  rw [h₁, h₂]
  refine ⟨rfl, rfl, rfl, rfl, by simp [strTruthy, hfresh], ?_⟩
  refine ⟨{ u with
            resetToken := some fresh₁,
            resetTokenExpiry := some (now + RESET_TOKEN_EXPIRY_HOURS * 60 * 60 * 1000) },
          ?_, rfl, rfl⟩
  have hu : u ∈ db := List.mem_of_find?_eq_some hex
  exact List.mem_map.mpr ⟨u, hu, by simp⟩

/-- Row used to instantiate the forgot-password theorem. -/
def wMailUser : User :=
  { id := 2, username := "bob", password := "ph", email := some "bob@example.com" }

/-- C8 witness: a matching and a non-matching email against a one-row
table at time 0. -/
theorem forgotPassword_no_enumeration_witness :
    (forgotPasswordRoute (fun _ => true) "t1" 0 [wMailUser] "bob@example.com").1 =
      (forgotPasswordRoute (fun _ => true) "t2" 0 [wMailUser] "nobody@example.com").1 ∧
    (forgotPasswordRoute (fun _ => true) "t1" 0 [wMailUser] "bob@example.com").1 =
      ⟨200, .success forgotGenericMessage⟩ ∧
    (forgotPasswordRoute (fun _ => true) "t2" 0 [wMailUser] "nobody@example.com").2.1
      = [wMailUser] ∧
    (forgotPasswordRoute (fun _ => true) "t2" 0 [wMailUser] "nobody@example.com").2.2
      = false ∧
    (forgotPasswordRoute (fun _ => true) "t1" 0 [wMailUser] "bob@example.com").2.2
      = true ∧
    ∃ w ∈ (forgotPasswordRoute (fun _ => true) "t1" 0 [wMailUser] "bob@example.com").2.1,
      w.resetToken = some "t1" ∧
      w.resetTokenExpiry = some (0 + RESET_TOKEN_EXPIRY_HOURS * 60 * 60 * 1000) :=
  forgotPassword_no_enumeration (fun _ => true) "t1" "t2" 0 [wMailUser]
    "bob@example.com" "nobody@example.com" (by decide) rfl rfl
    wMailUser (by decide) (by decide)

/-! ## Two-factor enrolment claim -/

theorem generateBackupCodes_length (codeRand : Nat → String) :
    (generateBackupCodes codeRand).length = BACKUP_CODES_COUNT := by
  simp [generateBackupCodes]

theorem hashBackupCodes_length (k : String → String → String)
    (sr : Nat → String) (codes : List String) :
    (hashBackupCodes k sr codes).length = codes.length := by
  simp [hashBackupCodes]

theorem hashBackupCodes_getElem? (k : String → String → String)
    (sr : Nat → String) (codes : List String) (i : Nat) :
    (hashBackupCodes k sr codes)[i]? =
      (codes[i]?).map (fun c => k c (sr i) ++ "." ++ sr i) := by
  simp only [hashBackupCodes, List.getElem?_map, List.getElem?_enum, Option.map_map]
  rfl

/-- C2: with a stored pending TOTP secret, a failing code leaves the
result `{enabled: false}` and the whole table untouched (in particular no
backup codes are written); a passing code enables 2FA for the user,
persists exactly ten backup-code digests — the `i`-th being the `i`-th
generated code hashed with its own `i`-th salt — and hands the ten
plaintext codes back to the caller, leaving every other row untouched. -/
theorem verify2FAAndEnable_spec
    (totpVerify : String → String → Bool) (scryptHex : String → String → String)
    (codeRand saltRand : Nat → String)
    (db : UserDb) (userId : Nat) (code : String) (user : User) (secret : String)
    (hFind : db.find? (fun u => u.id == userId) = some user)
    (hSecret : user.twoFactorSecret = some secret) (hne : secret ≠ "") :
    (totpVerify code secret = false →
      verify2FAAndEnable totpVerify scryptHex codeRand saltRand db userId code
        = ((false, none), db)) ∧
    (totpVerify code secret = true →
      (verify2FAAndEnable totpVerify scryptHex codeRand saltRand db userId code).1
        = (true, some (generateBackupCodes codeRand)) ∧
      (generateBackupCodes codeRand).length = BACKUP_CODES_COUNT ∧
      (verify2FAAndEnable totpVerify scryptHex codeRand saltRand db userId code).2.find?
          (fun u => u.id == userId)
        = some { user with
                 twoFactorEnabled := true,
                 twoFactorBackupCodes := some (hashBackupCodes scryptHex saltRand
                   (generateBackupCodes codeRand)) } ∧
      (hashBackupCodes scryptHex saltRand (generateBackupCodes codeRand)).length
        = BACKUP_CODES_COUNT ∧
      (∀ i, i < BACKUP_CODES_COUNT →
        (hashBackupCodes scryptHex saltRand (generateBackupCodes codeRand))[i]?
          = some (scryptHex (jsToUpper (codeRand i)) (saltRand i) ++ "." ++ saltRand i)) ∧
      (∀ u ∈ db, (u.id == userId) = false →
        u ∈ (verify2FAAndEnable totpVerify scryptHex codeRand saltRand db userId code).2)) := by
  have hTrue : strTruthy user.twoFactorSecret = true := by
    rw [hSecret]
    simp [strTruthy, hne]
  have hgetD : user.twoFactorSecret.getD "" = secret := by
    rw [hSecret]
    rfl
  constructor
  · intro hf
    unfold verify2FAAndEnable
    rw [hFind]
    simp only []
    rw [if_neg (by rw [hTrue]; simp), hgetD, if_pos hf]
  · intro ht
    have hres : verify2FAAndEnable totpVerify scryptHex codeRand saltRand db userId code
        = ((true, some (generateBackupCodes codeRand)),
            updateWhere (fun u => u.id == userId)
              (fun u =>
                { u with
                  twoFactorEnabled := true,
                  twoFactorBackupCodes := some (hashBackupCodes scryptHex saltRand
                    (generateBackupCodes codeRand)) }) db) := by
      unfold verify2FAAndEnable
      rw [hFind]
      simp only []
      rw [if_neg (by rw [hTrue]; simp), hgetD, if_neg (by rw [ht]; simp)]
    refine ⟨by rw [hres], generateBackupCodes_length codeRand, ?_, ?_, ?_, ?_⟩
    · rw [hres]
      simp only []
      have key :
          (updateWhere (fun u => u.id == userId)
            (fun u =>
              { u with
                twoFactorEnabled := true,
                twoFactorBackupCodes := some (hashBackupCodes scryptHex saltRand
                  (generateBackupCodes codeRand)) }) db).find? (fun u => u.id == userId)
          = (db.find? (fun u => u.id == userId)).map
              (fun u =>
                { u with
                  twoFactorEnabled := true,
                  twoFactorBackupCodes := some (hashBackupCodes scryptHex saltRand
                    (generateBackupCodes codeRand)) }) :=
        @find?_updateWhere (fun u => u.id == userId)
          (fun u =>
            { u with
              twoFactorEnabled := true,
              twoFactorBackupCodes := some (hashBackupCodes scryptHex saltRand
                (generateBackupCodes codeRand)) })
          (fun u => rfl) db
      rw [key, hFind, Option.map_some']
    · rw [hashBackupCodes_length, generateBackupCodes_length]
    · intro i hi
      rw [hashBackupCodes_getElem?]
      unfold generateBackupCodes
      rw [List.getElem?_map, List.getElem?_range hi]
      rfl
    · intro u hu hne'
      rw [hres]
      exact mem_updateWhere_of_mem hu hne'

/-- Row used to instantiate the 2FA-enrolment theorem. -/
def w2User : User :=
  { id := 3, username := "carol", password := "ph", twoFactorSecret := some "S" }

/-- C2 witness: with an always-accepting verifier, enabling returns the
ten plaintext codes on the success branch of the theorem. -/
theorem verify2FAAndEnable_spec_witness :
    (verify2FAAndEnable (fun _ _ => true) (fun a s => a ++ s)
      (fun _ => "c0ffee") (fun _ => "salt") [w2User] 3 "123456").1
      = (true, some (generateBackupCodes (fun _ => "c0ffee"))) :=
  ((verify2FAAndEnable_spec (fun _ _ => true) (fun a s => a ++ s)
      (fun _ => "c0ffee") (fun _ => "salt") [w2User] 3 "123456" w2User "S"
      (by decide) (by decide) (by decide)).2 rfl).1

/-! ## Two-factor invariant claim -/

/-- C10: in every table reachable through the two-factor operations, an
enabled row has a non-null secret; each of the four operations preserves
the invariant.  (`hN`: `id` is the primary key, so ids are distinct.) -/
theorem twoFactor_invariant
    (totpVerify : String → String → Bool) (scryptHex : String → String → String)
    (codeRand saltRand : Nat → String)
    (db : UserDb) (hN : (db.map User.id).Nodup)
    (hinv : ∀ u ∈ db, u.twoFactorEnabled = true → u.twoFactorSecret ≠ none)
    (userId : Nat) (code freshSecret : String) :
    (∀ u ∈ (generate2FASecret freshSecret db userId).2,
      u.twoFactorEnabled = true → u.twoFactorSecret ≠ none) ∧
    (∀ u ∈ (verify2FAAndEnable totpVerify scryptHex codeRand saltRand db userId code).2,
      u.twoFactorEnabled = true → u.twoFactorSecret ≠ none) ∧
    (∀ u ∈ (verify2FACode totpVerify scryptHex db userId code).2,
      u.twoFactorEnabled = true → u.twoFactorSecret ≠ none) ∧
    (∀ u ∈ disable2FA db userId,
      u.twoFactorEnabled = true → u.twoFactorSecret ≠ none) := by
  have uniq : ∀ u ∈ db, ∀ v ∈ db, u.id = v.id → u = v := fun u hu v hv h =>
    List.inj_on_of_nodup_map hN hu hv h
  refine ⟨?_, ?_, ?_, ?_⟩
  · intro u' hu'
    simp only [generate2FASecret] at hu'
    cases hcase : db.find? (fun u => u.id == userId) with
    | none =>
      rw [hcase] at hu'
      exact hinv u' hu'
    | some v =>
      rw [hcase] at hu'
      simp only [] at hu'
      obtain ⟨u, hu, he⟩ := mem_updateWhere hu'
      by_cases hp : (u.id == userId) = true
      · rw [if_pos hp] at he
        rw [he]
        intro _
        simp
      · rw [if_neg hp] at he
        rw [he]
        exact hinv u hu
  · intro u' hu'
    simp only [verify2FAAndEnable] at hu'
    cases hcase : db.find? (fun u => u.id == userId) with
    | none =>
      rw [hcase] at hu'
      exact hinv u' hu'
    | some user =>
      rw [hcase] at hu'
      simp only [] at hu'
      by_cases hts : strTruthy user.twoFactorSecret = false
      · rw [if_pos hts] at hu'
        exact hinv u' hu'
      · rw [if_neg hts] at hu'
        by_cases htv : totpVerify code (user.twoFactorSecret.getD "") = false
        · rw [if_pos htv] at hu'
          exact hinv u' hu'
        · rw [if_neg htv] at hu'
          obtain ⟨u, hu, he⟩ := mem_updateWhere hu'
          by_cases hp : (u.id == userId) = true
          · rw [if_pos hp] at he
            rw [he]
            intro _
            have huser_mem := List.mem_of_find?_eq_some hcase
            have huid : user.id = userId := by simpa using List.find?_some hcase
            have huu : u = user :=
              uniq u hu user huser_mem (by rw [huid]; simpa using hp)
            simp only []
            rw [huu]
            intro hcontra
            rw [hcontra] at hts
            exact hts rfl
          · rw [if_neg hp] at he
            rw [he]
            exact hinv u hu
  · intro u' hu'
    simp only [verify2FACode] at hu'
    cases hcase : db.find? (fun u => u.id == userId) with
    | none =>
      rw [hcase] at hu'
      exact hinv u' hu'
    | some user =>
      rw [hcase] at hu'
      simp only [] at hu'
      by_cases hc1 : strTruthy user.twoFactorSecret = false ∨ user.twoFactorEnabled = false
      · rw [if_pos hc1] at hu'
        exact hinv u' hu'
      · rw [if_neg hc1] at hu'
        by_cases hc2 : totpVerify code (user.twoFactorSecret.getD "") = true
        · rw [if_pos hc2] at hu'
          exact hinv u' hu'
        · rw [if_neg hc2] at hu'
          simp only [verifyAndConsumeBackupCode] at hu'
          rw [hcase] at hu'
          simp only [] at hu'
          cases hbc : user.twoFactorBackupCodes with
          | none =>
            rw [hbc] at hu'
            exact hinv u' hu'
          | some codes =>
            rw [hbc] at hu'
            simp only [] at hu'
            cases hcons : consumeFirst scryptHex (jsToUpper code) codes with
            | none =>
              rw [hcons] at hu'
              exact hinv u' hu'
            | some remaining =>
              rw [hcons] at hu'
              simp only [] at hu'
              obtain ⟨u, hu, he⟩ := mem_updateWhere hu'
              by_cases hp : (u.id == userId) = true
              · rw [if_pos hp] at he
                rw [he]
                exact hinv u hu
              · rw [if_neg hp] at he
                rw [he]
                exact hinv u hu
  · intro u' hu'
    simp only [disable2FA] at hu'
    obtain ⟨u, hu, he⟩ := mem_updateWhere hu'
    by_cases hp : (u.id == userId) = true
    · rw [if_pos hp] at he
      rw [he]
      intro hcontra
      simp at hcontra
    · rw [if_neg hp] at he
      rw [he]
      exact hinv u hu

/-- Row used to instantiate the invariant theorem. -/
def wInvUser : User :=
  { id := 4, username := "dan", password := "ph",
    twoFactorSecret := some "T", twoFactorEnabled := true }

/-- C10 witness: the row produced by `generate2FASecret` on a one-row
table satisfying the invariant still has a present secret. -/
theorem twoFactor_invariant_witness :
    ({ wInvUser with twoFactorSecret := some "NS" } : User).twoFactorSecret.isSome
      = true :=
  Option.ne_none_iff_isSome.mp
    ((twoFactor_invariant (fun _ _ => true) (fun a s => a ++ s)
      (fun _ => "c") (fun _ => "s") [wInvUser] (by decide) (by decide)
      4 "111111" "NS").1
      { wInvUser with twoFactorSecret := some "NS" } (by decide) (by decide))

/-! ## Rate-limiter claim -/

/-- Requests on `key` strictly before the window's expiry are all allowed
and just increment the counter, as long as the count stays within `max`. -/
theorem rateLimiterRun_within (windowMs max : Nat) (key : String) (E : Nat)
    (ts : List Nat) :
    ∀ (hits : HitsMap) (c : Nat),
      hits key = some ⟨c, E⟩ → (∀ t ∈ ts, t < E) → c + ts.length ≤ max →
      (rateLimiterRun windowMs max hits (ts.map (reqAt key))).1
        = ts.map (fun _ => RLOutcome.allowed) ∧
      (rateLimiterRun windowMs max hits (ts.map (reqAt key))).2 key
        = some ⟨c + ts.length, E⟩ := by
  induction ts with
  | nil =>
    intro hits c hrec _ _
    exact ⟨rfl, by simpa using hrec⟩
  | cons t ts ih =>
    intro hits c hrec hts hcnt
    have hnotexp : ¬ (E ≤ t) := Nat.not_le.mpr (hts t (List.mem_cons_self t ts))
    have hlt : ¬ (max ≤ c) := by
      simp only [List.length_cons] at hcnt
      omega
    have hclean : cleanup hits key ⟨c, E⟩ t = hits := by
      unfold cleanup
      rw [if_neg hnotexp]
    have hstep : rateLimiter windowMs max hits (reqAt key t)
        = (.allowed, setHit hits key ⟨c + 1, E⟩) := by
      unfold rateLimiter reqAt
      simp only [Bool.false_eq_true, if_false]
      rw [hrec]
      simp only []
      rw [if_neg hnotexp, hclean, if_neg hlt]
    have hkey : setHit hits key ⟨c + 1, E⟩ key = some ⟨c + 1, E⟩ := by
      unfold setHit
      rw [if_pos rfl]
    have hcnt' : (c + 1) + ts.length ≤ max := by
      simp only [List.length_cons] at hcnt
      omega
    obtain ⟨ho, hrec'⟩ := ih (setHit hits key ⟨c + 1, E⟩) (c + 1) hkey
      (fun x hx => hts x (List.mem_cons_of_mem t hx)) hcnt'
    constructor
    · simp only [List.map_cons, rateLimiterRun, hstep, ho]
    · simp only [List.map_cons, rateLimiterRun, hstep]
      rw [hrec']
      simp only [List.length_cons]
      congr 2
      omega

/-- A skipped request is passed through with no state change. -/
theorem rateLimiter_skip (windowMs max : Nat) (hits : HitsMap) (k : String) (t : Nat) :
    rateLimiter windowMs max hits ⟨true, k, t⟩ = (.allowed, hits) := by
  unfold rateLimiter
  rw [if_pos rfl]

/-- With no record, or an expired one, a request creates a fresh count-1
record expiring a window later, and is allowed. -/
theorem rateLimiter_fresh (windowMs max : Nat) (hits : HitsMap) (key : String) (t : Nat)
    (h : hits key = none ∨ ∃ r, hits key = some r ∧ r.expiresAt ≤ t) :
    rateLimiter windowMs max hits (reqAt key t)
      = (.allowed, setHit hits key ⟨1, t + windowMs⟩) := by
  unfold rateLimiter reqAt
  simp only [Bool.false_eq_true, if_false]
  rcases h with hn | ⟨r, hr, hexp⟩
  · rw [hn]
  · rw [hr]
    simp only []
    rw [if_pos hexp]

/-- A request inside the window against a saturated record is answered
429 with the ceiling of the remaining seconds, and changes nothing. -/
theorem rateLimiter_reject (windowMs max : Nat) (hits : HitsMap) (key : String)
    (t E c : Nat) (hrec : hits key = some ⟨c, E⟩) (hlt : t < E) (hc : max ≤ c) :
    rateLimiter windowMs max hits (reqAt key t)
      = (.rejected 429 ((E - t + 999) / 1000), hits) := by
  have hclean : cleanup hits key ⟨c, E⟩ t = hits := by
    unfold cleanup
    rw [if_neg (Nat.not_le.mpr hlt)]
  unfold rateLimiter reqAt
  simp only [Bool.false_eq_true, if_false]
  rw [hrec]
  simp only []
  rw [if_neg (Nat.not_le.mpr hlt), hclean, if_pos hc]

/-- C4: with `max = N ≥ 1`, from a state with no (or an expired) record
for the key, the first request is allowed and creates a count-1 record;
the following `N - 1` requests inside the window are all allowed; one more
request inside the window is rejected with HTTP 429 (and does not change
the state); the first request at or after the expiry is allowed again with
a fresh count of 1; and a request the `skip` predicate accepts always
passes with no state change. -/
theorem rateLimiter_window_spec (windowMs max : Nat) (hmax : 1 ≤ max)
    (key : String) (hits₀ : HitsMap) (t₁ : Nat)
    (h₀ : hits₀ key = none ∨ ∃ r, hits₀ key = some r ∧ r.expiresAt ≤ t₁)
    (ts : List Nat) (hts : ∀ t ∈ ts, t < t₁ + windowMs) (hlen : ts.length = max - 1)
    (t' t'' : Nat) (ht' : t' < t₁ + windowMs) (ht'' : t₁ + windowMs ≤ t'')
    (step₁ : RLOutcome × HitsMap)
    (hstep₁ : rateLimiter windowMs max hits₀ (reqAt key t₁) = step₁)
    (run : List RLOutcome × HitsMap)
    (hrun : rateLimiterRun windowMs max step₁.2 (ts.map (reqAt key)) = run) :
    step₁.1 = .allowed ∧
    step₁.2 key = some ⟨1, t₁ + windowMs⟩ ∧
    run.1 = ts.map (fun _ => RLOutcome.allowed) ∧
    run.2 key = some ⟨max, t₁ + windowMs⟩ ∧
    rateLimiter windowMs max run.2 (reqAt key t')
      = (.rejected 429 ((t₁ + windowMs - t' + 999) / 1000), run.2) ∧
    (rateLimiter windowMs max run.2 (reqAt key t'')).1 = .allowed ∧
    (rateLimiter windowMs max run.2 (reqAt key t'')).2 key
      = some ⟨1, t'' + windowMs⟩ ∧
    (∀ hits t k, rateLimiter windowMs max hits ⟨true, k, t⟩ = (.allowed, hits)) := by
  have hstep₁' : step₁ = (.allowed, setHit hits₀ key ⟨1, t₁ + windowMs⟩) :=
    hstep₁.symm.trans (rateLimiter_fresh windowMs max hits₀ key t₁ h₀)
  have hkey₁ : step₁.2 key = some ⟨1, t₁ + windowMs⟩ := by
    rw [hstep₁']
    simp [setHit]
  have hcnt : 1 + ts.length ≤ max := by omega
  obtain ⟨ho, hrec⟩ := rateLimiterRun_within windowMs max key (t₁ + windowMs) ts
    step₁.2 1 hkey₁ hts hcnt
  rw [hrun] at ho hrec
  have hmaxrec : run.2 key = some ⟨max, t₁ + windowMs⟩ := by
    rw [hrec]
    congr 2
    omega
  refine ⟨by rw [hstep₁'], hkey₁, ho, hmaxrec, ?_, ?_, ?_, ?_⟩
  · exact rateLimiter_reject windowMs max run.2 key t' (t₁ + windowMs) max
      hmaxrec ht' (Nat.le_refl max)
  · rw [rateLimiter_fresh windowMs max run.2 key t''
      (Or.inr ⟨⟨max, t₁ + windowMs⟩, hmaxrec, ht''⟩)]
  · rw [rateLimiter_fresh windowMs max run.2 key t''
      (Or.inr ⟨⟨max, t₁ + windowMs⟩, hmaxrec, ht''⟩)]
    simp [setHit]
  · intro hits t k
    exact rateLimiter_skip windowMs max hits k t


/-- C4 witness: `max = 2`, `windowMs = 1000`: requests at 0 and 1 pass,
a third at 2 is rejected with 429, a request at 1000 opens a new window. -/
theorem rateLimiter_window_spec_witness :
    (RLOutcome.allowed, setHit (fun _ => none) "k" ⟨1, 1000⟩).1 = .allowed ∧
    (RLOutcome.allowed, setHit (fun _ => none) "k" ⟨1, 1000⟩).2 "k" = some ⟨1, 1000⟩ ∧
    ([RLOutcome.allowed], setHit (setHit (fun _ => none) "k" ⟨1, 1000⟩) "k" ⟨2, 1000⟩).1
      = [(1 : Nat)].map (fun _ => RLOutcome.allowed) ∧
    ([RLOutcome.allowed], setHit (setHit (fun _ => none) "k" ⟨1, 1000⟩) "k" ⟨2, 1000⟩).2 "k"
      = some ⟨2, 1000⟩ ∧
    rateLimiter 1000 2
      ([RLOutcome.allowed], setHit (setHit (fun _ => none) "k" ⟨1, 1000⟩) "k" ⟨2, 1000⟩).2
      (reqAt "k" 2)
      = (.rejected 429 ((1000 - 2 + 999) / 1000),
         ([RLOutcome.allowed], setHit (setHit (fun _ => none) "k" ⟨1, 1000⟩) "k" ⟨2, 1000⟩).2) ∧
    (rateLimiter 1000 2
      ([RLOutcome.allowed], setHit (setHit (fun _ => none) "k" ⟨1, 1000⟩) "k" ⟨2, 1000⟩).2
      (reqAt "k" 1000)).1 = .allowed ∧
    (rateLimiter 1000 2
      ([RLOutcome.allowed], setHit (setHit (fun _ => none) "k" ⟨1, 1000⟩) "k" ⟨2, 1000⟩).2
      (reqAt "k" 1000)).2 "k" = some ⟨1, 2000⟩ ∧
    (∀ hits t k, rateLimiter 1000 2 hits ⟨true, k, t⟩ = (.allowed, hits)) :=
  rateLimiter_window_spec 1000 2 (by decide) "k" (fun _ => none) 0
    (Or.inl rfl) [1] (by decide) (by decide) 2 1000 (by decide) (by decide)
    (RLOutcome.allowed, setHit (fun _ => none) "k" ⟨1, 1000⟩) rfl
    ([RLOutcome.allowed], setHit (setHit (fun _ => none) "k" ⟨1, 1000⟩) "k" ⟨2, 1000⟩) rfl

/-! ## Backup-code single-use claim -/

/-- The shape in which `hashBackupCodes` stores a (code, salt) pair. -/
def encodeBackupEntry (k : String → String → String) (p : String × String) : String :=
  k p.1 p.2 ++ "." ++ p.2

theorem consumeFirst_eq_none {k : String → String → String} {x : String} :
    ∀ {l : List String}, (∀ e ∈ l, entryMatches k x e = false) →
      consumeFirst k x l = none := by
  intro l
  induction l with
  | nil => intro _; rfl
  | cons e rest ih =>
    intro h
    unfold consumeFirst
    rw [if_neg (by simp [h e (List.mem_cons_self e rest)]),
      ih (fun a ha => h a (List.mem_cons_of_mem e ha))]
    rfl

theorem consumeFirst_append {k : String → String → String} {x : String}
    (l₂ : List String) :
    ∀ (l₁ : List String), (∀ e ∈ l₁, entryMatches k x e = false) →
      consumeFirst k x (l₁ ++ l₂) = (consumeFirst k x l₂).map (l₁ ++ ·) := by
  intro l₁
  induction l₁ with
  | nil =>
    intro _
    simp
  | cons e l₁ ih =>
    intro h
    have step : consumeFirst k x (e :: (l₁ ++ l₂))
        = (consumeFirst k x (l₁ ++ l₂)).map (e :: ·) := by
      conv_lhs => unfold consumeFirst
      rw [if_neg (by simp [h e (List.mem_cons_self e l₁)])]
    rw [List.cons_append, step,
      ih (fun a ha => h a (List.mem_cons_of_mem e ha)), Option.map_map]
    rfl

theorem consumeFirst_cons_match {k : String → String → String} {x e : String}
    {l : List String} (h : entryMatches k x e = true) :
    consumeFirst k x (e :: l) = some l := by
  unfold consumeFirst
  rw [if_pos h]

theorem consumeFirst_isSome {k : String → String → String} {x : String}
    {l : List String} {e : String} (he : e ∈ l) (hm : entryMatches k x e = true) :
    ∃ l', consumeFirst k x l = some l' := by
  induction l with
  | nil => cases he
  | cons a rest ih =>
    by_cases ha : entryMatches k x a = true
    · exact ⟨rest, consumeFirst_cons_match ha⟩
    · rcases List.mem_cons.mp he with rfl | hmem
      · exact absurd hm ha
      · obtain ⟨l', hl'⟩ := ih hmem
        refine ⟨a :: l', ?_⟩
        unfold consumeFirst
        rw [if_neg ha, hl']
        rfl

/-- Under the hash.salt round-trip facts and per-salt injectivity of the
digest, a stored entry matches a supplied (already-uppercased) code
exactly when it is that code's entry. -/
theorem entryMatches_encode {k : String → String → String} {x : String}
    {p : String × String}
    (hh : entryHash (encodeBackupEntry k p) = k p.1 p.2)
    (hs : entrySalt (encodeBackupEntry k p) = p.2)
    (hinj : ∀ s a b, k a s = k b s → a = b) :
    entryMatches k x (encodeBackupEntry k p) = decide (p.1 = x) := by
  unfold entryMatches
  rw [hh, hs]
  by_cases he : p.1 = x
  · subst he
    simp
  · have hne : k p.1 p.2 ≠ k x p.2 := fun hcon => he (hinj p.2 p.1 x hcon)
    simp [hne, he]

/-- C3: for a 2FA-enabled user whose stored backup-code entries are the
digests of distinct plaintext codes (the entry for code `c` sitting
between `cs₁` and `cs₂`), a login with `c` that fails TOTP succeeds via
the backup path and removes exactly `c`'s entry; a second login with the
identical `c` then fails, while every remaining unused code still
succeeds individually.  Hypotheses: digests/salts round-trip through the
`"hash.salt"` encoding (hex strings contain no dot), the digest is
injective per salt (no collisions), stored codes are uppercase (as
generated), and no backup code passes the TOTP check. -/
theorem backupCode_single_use
    (totpVerify : String → String → Bool) (scryptHex : String → String → String)
    (db : UserDb) (userId : Nat) (user : User) (secret : String)
    (cs₁ cs₂ : List (String × String)) (c : String) (s₀ : String)
    (hFind : db.find? (fun u => u.id == userId) = some user)
    (hEnabled : user.twoFactorEnabled = true)
    (hSecret : user.twoFactorSecret = some secret) (hsne : secret ≠ "")
    (hCodes : user.twoFactorBackupCodes
      = some ((cs₁ ++ (c, s₀) :: cs₂).map (encodeBackupEntry scryptHex)))
    (hInj : ∀ s a b, scryptHex a s = scryptHex b s → a = b)
    (hParse : ∀ p ∈ cs₁ ++ (c, s₀) :: cs₂,
      entryHash (encodeBackupEntry scryptHex p) = scryptHex p.1 p.2 ∧
      entrySalt (encodeBackupEntry scryptHex p) = p.2)
    (hUpper : ∀ p ∈ cs₁ ++ (c, s₀) :: cs₂, jsToUpper p.1 = p.1)
    (hTotp : ∀ p ∈ cs₁ ++ (c, s₀) :: cs₂, totpVerify p.1 secret = false)
    (hc : ∀ p ∈ cs₁ ++ cs₂, p.1 ≠ c)
    (res : Bool × UserDb)
    (hres : verify2FACode totpVerify scryptHex db userId c = res) :
    res.1 = true ∧
    res.2.find? (fun u => u.id == userId)
      = some { user with twoFactorBackupCodes := some ((cs₁ ++ cs₂).map (encodeBackupEntry scryptHex)) } ∧
    (verify2FACode totpVerify scryptHex res.2 userId c).1 = false ∧
    (∀ p ∈ cs₁ ++ cs₂, (verify2FACode totpVerify scryptHex res.2 userId p.1).1 = true) := by
  have hmid : (c, s₀) ∈ cs₁ ++ (c, s₀) :: cs₂ :=
    List.mem_append_right _ (List.mem_cons_self _ _)
  have hcup : jsToUpper c = c := hUpper (c, s₀) hmid
  have hmatch : ∀ x, ∀ p ∈ cs₁ ++ (c, s₀) :: cs₂,
      entryMatches scryptHex x (encodeBackupEntry scryptHex p) = decide (p.1 = x) :=
    fun x p hp => entryMatches_encode (hParse p hp).1 (hParse p hp).2 hInj
  have hsub : ∀ p ∈ cs₁ ++ cs₂, p ∈ cs₁ ++ (c, s₀) :: cs₂ := by
    intro p hp
    rcases List.mem_append.mp hp with h1 | h2
    · exact List.mem_append_left _ h1
    · exact List.mem_append_right _ (List.mem_cons_of_mem _ h2)
  have hgetD : user.twoFactorSecret.getD "" = secret := by
    rw [hSecret]
    rfl
  have hcond : ¬ (strTruthy user.twoFactorSecret = false ∨
      user.twoFactorEnabled = false) := by
    rw [hSecret, hEnabled]
    simp [strTruthy, hsne]
  have hconsume : consumeFirst scryptHex c
      ((cs₁ ++ (c, s₀) :: cs₂).map (encodeBackupEntry scryptHex))
      = some ((cs₁ ++ cs₂).map (encodeBackupEntry scryptHex)) := by
    rw [List.map_append, List.map_cons]
    rw [consumeFirst_append _ _ ?misses]
    case misses =>
      intro e he
      obtain ⟨p, hp, rfl⟩ := List.mem_map.mp he
      rw [hmatch c p (List.mem_append_left _ hp)]
      simp [hc p (List.mem_append_left _ hp)]
    rw [consumeFirst_cons_match (by rw [hmatch c (c, s₀) hmid]; simp)]
    rw [Option.map_some', List.map_append]
  have hfc : verify2FACode totpVerify scryptHex db userId c
      = (true, updateWhere (fun u => u.id == userId)
          (fun u => { u with twoFactorBackupCodes := some ((cs₁ ++ cs₂).map (encodeBackupEntry scryptHex)) }) db) := by
    unfold verify2FACode
    rw [hFind]
    simp only []
    rw [if_neg hcond, hgetD,
      if_neg (by rw [hTotp (c, s₀) hmid]; simp)]
    unfold verifyAndConsumeBackupCode
    rw [hFind]
    simp only []
    rw [hCodes]
    simp only []
    rw [hcup, hconsume]
  have hres' : res = (true, updateWhere (fun u => u.id == userId)
      (fun u => { u with twoFactorBackupCodes := some ((cs₁ ++ cs₂).map (encodeBackupEntry scryptHex)) }) db) :=
    hres.symm.trans hfc
  have hfind' : res.2.find? (fun u => u.id == userId)
      = some { user with twoFactorBackupCodes := some ((cs₁ ++ cs₂).map (encodeBackupEntry scryptHex)) } := by
    rw [hres']
    simp only []
    have key :
        (updateWhere (fun u => u.id == userId)
          (fun u => { u with twoFactorBackupCodes := some ((cs₁ ++ cs₂).map (encodeBackupEntry scryptHex)) }) db).find?
          (fun u => u.id == userId)
        = (db.find? (fun u => u.id == userId)).map
            (fun u => { u with twoFactorBackupCodes := some ((cs₁ ++ cs₂).map (encodeBackupEntry scryptHex)) }) :=
      @find?_updateWhere (fun u => u.id == userId)
        (fun u => { u with twoFactorBackupCodes := some ((cs₁ ++ cs₂).map (encodeBackupEntry scryptHex)) })
        (fun u => rfl) db
    rw [key, hFind, Option.map_some']
  have hconsume2 : ∀ x, (∀ p ∈ cs₁ ++ cs₂, p.1 ≠ x) →
      consumeFirst scryptHex x ((cs₁ ++ cs₂).map (encodeBackupEntry scryptHex))
        = none := by
    intro x hx
    apply consumeFirst_eq_none
    intro e he
    obtain ⟨p, hp, rfl⟩ := List.mem_map.mp he
    rw [hmatch x p (hsub p hp)]
    simp [hx p hp]
  refine ⟨by rw [hres'], hfind', ?_, ?_⟩
  · unfold verify2FACode
    rw [hfind']
    simp only []
    rw [if_neg hcond, hgetD,
      if_neg (by rw [hTotp (c, s₀) hmid]; simp)]
    unfold verifyAndConsumeBackupCode
    rw [hfind']
    simp only []
    rw [hcup, hconsume2 c hc]
  · intro p hp
    have hp' : p ∈ cs₁ ++ (c, s₀) :: cs₂ := hsub p hp
    obtain ⟨l', hl'⟩ : ∃ l', consumeFirst scryptHex p.1
        ((cs₁ ++ cs₂).map (encodeBackupEntry scryptHex)) = some l' :=
      consumeFirst_isSome (List.mem_map_of_mem _ hp)
        (by rw [hmatch p.1 p hp']; simp)
    unfold verify2FACode
    rw [hfind']
    simp only []
    rw [if_neg hcond, hgetD,
      if_neg (by rw [hTotp p hp']; simp)]
    unfold verifyAndConsumeBackupCode
    rw [hfind']
    simp only []
    rw [hUpper p hp', hl']

/-- Row used to instantiate the backup-code theorem: three stored entries
for codes `A`, `B`, `C` (digest modelled as the code itself). -/
def wBkUser : User :=
  { id := 5, username := "eve", password := "ph",
    twoFactorSecret := some "S", twoFactorEnabled := true,
    twoFactorBackupCodes := some ["A.x", "B.y", "C.z"] }

/-- The same row after code `B` has been consumed. -/
def wBkUser2 : User :=
  { wBkUser with twoFactorBackupCodes := some ["A.x", "C.z"] }

/-- C3 witness: once `B` is consumed, a second attempt with `B` fails. -/
theorem backupCode_single_use_witness :
    (verify2FACode (fun _ _ => false) (fun a _ => a) [wBkUser2] 5 "B").1 = false :=
  (backupCode_single_use (fun _ _ => false) (fun a _ => a) [wBkUser] 5 wBkUser "S"
    [("A", "x")] [("C", "z")] "B" "y"
    (by decide) (by decide) (by decide) (by decide) (by decide)
    (fun _ _ _ h => h) (by decide) (by decide) (by decide) (by decide)
    (true, [wBkUser2]) (by decide)).2.2.1

end Scry
